import Mathlib

/- Batteries marks the rational operations irreducible; re-allow unfolding so
that concrete classifier runs can be settled by `decide`. -/
set_option allowUnsafeReducibility true in
attribute [semireducible] Rat.add Rat.sub Rat.mul Rat.inv Rat.ofScientific

/-!
Verification development for the Elliott-wave sentiment checker
(`bot.py`, class `AdvancedElliottSentimentChecker`).

Numeric model: pandas/numpy float values are embedded as exact rationals
extended with not-a-number and signed infinities (`Fl`).  Arithmetic and
comparisons follow IEEE-754 semantics on these values (`x / 0` is a signed
infinity for `x ≠ 0` and NaN for `x = 0`; every comparison involving NaN is
false), with real (exact) arithmetic on finite values.
-/

/-- An extended value: NaN, +inf, -inf or a finite rational. -/
inductive Fl where
  | nan : Fl
  | pinf : Fl
  | ninf : Fl
  | fin : ℚ → Fl
deriving DecidableEq, Repr

namespace Fl

/-- True exactly on NaN. -/
def isNan : Fl → Bool
  | .nan => true
  | _ => false

/-- IEEE negation. -/
def neg : Fl → Fl
  | .nan => .nan
  | .pinf => .ninf
  | .ninf => .pinf
  | .fin q => .fin (-q)

/-- IEEE addition on extended rationals. -/
def add : Fl → Fl → Fl
  | .nan, _ => .nan
  | _, .nan => .nan
  | .pinf, .ninf => .nan
  | .ninf, .pinf => .nan
  | .pinf, _ => .pinf
  | _, .pinf => .pinf
  | .ninf, _ => .ninf
  | _, .ninf => .ninf
  | .fin a, .fin b => .fin (a + b)

/-- IEEE subtraction. -/
def sub (a b : Fl) : Fl := add a (neg b)

/-- IEEE multiplication. -/
def mul : Fl → Fl → Fl
  | .nan, _ => .nan
  | _, .nan => .nan
  | .pinf, .pinf => .pinf
  | .pinf, .ninf => .ninf
  | .ninf, .pinf => .ninf
  | .ninf, .ninf => .pinf
  | .pinf, .fin b => if b = 0 then .nan else if 0 < b then .pinf else .ninf
  | .fin a, .pinf => if a = 0 then .nan else if 0 < a then .pinf else .ninf
  | .ninf, .fin b => if b = 0 then .nan else if 0 < b then .ninf else .pinf
  | .fin a, .ninf => if a = 0 then .nan else if 0 < a then .ninf else .pinf
  | .fin a, .fin b => .fin (a * b)

/-- IEEE division (numpy behaviour: finite / 0 is a signed infinity,
0 / 0 is NaN). -/
def div : Fl → Fl → Fl
  | .nan, _ => .nan
  | _, .nan => .nan
  | .pinf, .pinf => .nan
  | .pinf, .ninf => .nan
  | .ninf, .pinf => .nan
  | .ninf, .ninf => .nan
  | .pinf, .fin b => if 0 ≤ b then .pinf else .ninf
  | .ninf, .fin b => if 0 ≤ b then .ninf else .pinf
  | .fin _, .pinf => .fin 0
  | .fin _, .ninf => .fin 0
  | .fin a, .fin b =>
      if b = 0 then (if a = 0 then .nan else if 0 < a then .pinf else .ninf)
      else .fin (a / b)

/-- IEEE strict less-than: any comparison with NaN is false. -/
def lt : Fl → Fl → Bool
  | .nan, _ => false
  | _, .nan => false
  | .pinf, _ => false
  | .ninf, .ninf => false
  | .ninf, _ => true
  | .fin _, .pinf => true
  | .fin _, .ninf => false
  | .fin a, .fin b => decide (a < b)

/-- IEEE less-or-equal: any comparison with NaN is false. -/
def le : Fl → Fl → Bool
  | .nan, _ => false
  | _, .nan => false
  | .ninf, _ => true
  | _, .pinf => true
  | .pinf, _ => false
  | _, .ninf => false
  | .fin a, .fin b => decide (a ≤ b)

/-- Greater-than, defined from `lt` as in Python. -/
def gt (a b : Fl) : Bool := lt b a

/-- Greater-or-equal, defined from `le`. -/
def ge (a b : Fl) : Bool := le b a

/-- Fold step for window minima (windows never contain NaN when used). -/
def minF (a b : Fl) : Fl := if lt b a then b else a

/-- Fold step for window maxima. -/
def maxF (a b : Fl) : Fl := if lt a b then b else a

@[simp] theorem lt_nan_left (b : Fl) : lt .nan b = false := by
  cases b <;> rfl

@[simp] theorem lt_nan_right (a : Fl) : lt a .nan = false := by
  cases a <;> rfl

@[simp] theorem le_nan_left (b : Fl) : le .nan b = false := by
  cases b <;> rfl

@[simp] theorem le_nan_right (a : Fl) : le a .nan = false := by
  cases a <;> rfl

@[simp] theorem gt_nan_left (b : Fl) : gt .nan b = false := by
  simp [gt]

@[simp] theorem gt_nan_right (a : Fl) : gt a .nan = false := by
  simp [gt]

@[simp] theorem ge_nan_left (b : Fl) : ge .nan b = false := by
  simp [ge]

@[simp] theorem ge_nan_right (a : Fl) : ge a .nan = false := by
  simp [ge]

theorem isNan_iff (a : Fl) : isNan a = true ↔ a = .nan := by
  cases a <;> simp [isNan]

end Fl

/-!
Indicator engine (`calculate_stoch_rsi`, `calculate_hlt`, `calculate_rsi`,
`detect_volume_spike`, moving averages).  Each derived series is embedded as
a function of the bar index; pandas `rolling(window=w)` at index `j` uses the
`w` entries `j-w+1 .. j` and (with the default `min_periods = w`) yields NaN
unless the window is full and free of NaN.
-/

/-- The value of a raw (rational) column at index `j`; NaN out of range. -/
def colAt (l : List ℚ) (j : ℕ) : Fl := (l[j]?).elim .nan .fin

/-- `Series.diff()` at index `j`: `l[j] - l[j-1]`, NaN at index 0. -/
def deltaAt (l : List ℚ) (j : ℕ) : Fl :=
  if j = 0 then .nan else Fl.sub (colAt l j) (colAt l (j - 1))

/-- `delta.where(delta > 0, 0)`: the positive part of the price delta
(NaN compares false, so the leading NaN becomes 0). -/
def gainAt (l : List ℚ) (j : ℕ) : Fl :=
  if Fl.lt (.fin 0) (deltaAt l j) then deltaAt l j else .fin 0

/-- `-delta.where(delta < 0, 0)`: minus the negative part of the delta. -/
def lossAt (l : List ℚ) (j : ℕ) : Fl :=
  Fl.neg (if Fl.lt (deltaAt l j) (.fin 0) then deltaAt l j else .fin 0)

/-- The rolling window of `f` of width `w` ending at index `j`
(all indices `j+1-w .. j`, fewer when `j+1 < w`). -/
def rollWindow (f : ℕ → Fl) (w j : ℕ) : List Fl :=
  ((List.range (j + 1)).drop (j + 1 - w)).map f

/-- Sum of a window. -/
def flSum (l : List Fl) : Fl := l.foldl Fl.add (.fin 0)

/-- `rolling(window=w).mean()` at index `j`. -/
def rollingMean (f : ℕ → Fl) (w j : ℕ) : Fl :=
  if j + 1 < w ∨ (rollWindow f w j).any Fl.isNan then .nan
  else Fl.div (flSum (rollWindow f w j)) (.fin (w : ℚ))

/-- `rolling(window=w).min()` at index `j`. -/
def rollingMin (f : ℕ → Fl) (w j : ℕ) : Fl :=
  match rollWindow f w j with
  | [] => .nan
  | x :: xs =>
      if j + 1 < w ∨ (x :: xs).any Fl.isNan then .nan else xs.foldl Fl.minF x

/-- `rolling(window=w).max()` at index `j`. -/
def rollingMax (f : ℕ → Fl) (w j : ℕ) : Fl :=
  match rollWindow f w j with
  | [] => .nan
  | x :: xs =>
      if j + 1 < w ∨ (x :: xs).any Fl.isNan then .nan else xs.foldl Fl.maxF x

/-- `calculate_rsi` at index `j`: 14-period mean-gain / mean-loss RSI.
Also the RSI series computed inside `calculate_stoch_rsi`. -/
def rsiAt (l : List ℚ) (j : ℕ) : Fl :=
  Fl.sub (.fin 100)
    (Fl.div (.fin 100)
      (Fl.add (.fin 1)
        (Fl.div (rollingMean (gainAt l) 14 j) (rollingMean (lossAt l) 14 j))))

/-- The raw stochastic-RSI of `calculate_stoch_rsi` before smoothing:
`(rsi - rsi_min) / (rsi_max - rsi_min) * 100` over a 14-bar window. -/
def stochRsiAt (l : List ℚ) (j : ℕ) : Fl :=
  Fl.mul
    (Fl.div (Fl.sub (rsiAt l j) (rollingMin (rsiAt l) 14 j))
            (Fl.sub (rollingMax (rsiAt l) 14 j) (rollingMin (rsiAt l) 14 j)))
    (.fin 100)

/-- The `%K` line: 3-bar moving average of the raw stochastic RSI. -/
def stochKAt (l : List ℚ) (j : ℕ) : Fl := rollingMean (stochRsiAt l) 3 j

/-- The `%D` line: 3-bar moving average of `%K`. -/
def stochDAt (l : List ℚ) (j : ℕ) : Fl := rollingMean (stochKAt l) 3 j

/-- `calculate_hlt`: `(close - ll) / (hh - ll) * 100` over 20 bars. -/
def hltAt (high low close : List ℚ) (j : ℕ) : Fl :=
  Fl.mul
    (Fl.div (Fl.sub (colAt close j) (rollingMin (colAt low) 20 j))
            (Fl.sub (rollingMax (colAt high) 20 j) (rollingMin (colAt low) 20 j)))
    (.fin 100)

/-- `detect_volume_spike`: `volume > rolling20mean(volume) * 2.0`. -/
def volSpikeAt (vol : List ℚ) (j : ℕ) : Bool :=
  Fl.gt (colAt vol j) (Fl.mul (rollingMean (colAt vol) 20 j) (.fin 2))

/-- Simple moving average of width `w` of the closing price. -/
def smaAt (l : List ℚ) (w j : ℕ) : Fl := rollingMean (colAt l) w j

/-- `Series.pct_change(k).iloc[-1]`: relative change of the last entry
against the entry `k` steps earlier (NaN without enough history). -/
def pctChangeLast (l : List ℚ) (k : ℕ) : Fl :=
  if l.length ≤ k then .nan
  else
    Fl.div (Fl.sub (colAt l (l.length - 1)) (colAt l (l.length - 1 - k)))
           (colAt l (l.length - 1 - k))

/-- `Series.mean()` as pandas computes it: NaN entries are skipped;
an empty or all-NaN series has mean NaN. -/
def seriesMean (l : List Fl) : Fl :=
  let nn := l.filter (fun x => !Fl.isNan x)
  match nn with
  | [] => .nan
  | _ :: _ => Fl.div (flSum nn) (.fin (nn.length : ℚ))

/-- `Series.iloc[-n:]`: the last `n` entries (all of them when shorter). -/
def lastN (n : ℕ) (l : List Fl) : List Fl := l.drop (l.length - n)

/-!
Data frame model.  A `Frame` is the pandas DataFrame: the five raw OHLCV
columns plus the optional columns the program attaches (`vix` and
`fear_greed` from `fetch_market_data`, the indicator columns from
`calculate_all_indicators`, and the `stage` columns from
`analyze_stage_history`).  `none` means the column is absent.
-/

structure Frame where
  dOpen : List ℚ
  dHigh : List ℚ
  dLow : List ℚ
  dClose : List ℚ
  dVolume : List ℚ
  vix : Option (List Fl) := none
  fear_greed : Option (List Fl) := none
  stoch_rsi_k : Option (List Fl) := none
  stoch_rsi_d : Option (List Fl) := none
  hlt : Option (List Fl) := none
  volume_spike : Option (List Bool) := none
  sma_20 : Option (List Fl) := none
  sma_50 : Option (List Fl) := none
  rsi : Option (List Fl) := none
  stage : Option (List (Option String)) := none
  stage_confidence : Option (List ℚ) := none
deriving DecidableEq, Repr

/-- `len(data)`: the number of rows of the frame. -/
def frameLen (f : Frame) : ℕ := f.dClose.length

/-- A full column derived index-by-index from the raw data. -/
def colOf {α : Type} (n : ℕ) (F : ℕ → α) : List α := (List.range n).map F

/-- `calculate_all_indicators`: attaches the stochastic-RSI lines, HLT,
volume-spike flags, the two moving averages and the RSI to the frame;
the raw OHLCV columns are passed through unchanged. -/
def calculate_all_indicators (f : Frame) : Frame :=
  let n := frameLen f
  { f with
    stoch_rsi_k := some (colOf n (stochKAt f.dClose))
    stoch_rsi_d := some (colOf n (stochDAt f.dClose))
    hlt := some (colOf n (hltAt f.dHigh f.dLow f.dClose))
    volume_spike := some (colOf n (volSpikeAt f.dVolume))
    sma_20 := some (colOf n (smaAt f.dClose 20))
    sma_50 := some (colOf n (smaAt f.dClose 50))
    rsi := some (colOf n (rsiAt f.dClose)) }

/-!
Stage classifier (`analyze_stage`).
-/

/-- The indicator snapshot reported in `results['indicators']`. -/
structure Snap where
  stoch_rsi_k : Fl
  stoch_rsi_d : Fl
  hlt : Fl
  volume_spike : Bool
  fear_greed : Fl
  vix : Fl
  weekly_stoch_rsi : Fl
  rsi : Fl
deriving DecidableEq, Repr

/-- The extra lookback quantities the bonus conditions read from the frame:
the 5-bar stochastic-K mean, the last close and high, and the 5- and 3-bar
percentage price changes. -/
structure BonusCtx where
  mean5 : Fl
  lastClose : Fl
  lastHigh : Fl
  pc5 : Fl
  pc3 : Fl
deriving DecidableEq, Repr

/-- One row of the rule table: tag, gate, base confidence, bonus condition
and the confidence after the bonus increment (rules without a bonus use a
never-true condition and keep the base).  The two confidence fields are the
exact values of the IEEE-754 doubles the source stores in
`confidence_scores`: the base is the double nearest the literal, and
`bonusConf` is the correctly rounded double sum `base + bonus amount`. -/
structure Rule where
  tag : String
  gate : Snap → BonusCtx → Bool
  base : ℚ
  bonus : Snap → BonusCtx → Bool
  bonusConf : ℚ

/-- Stage A gate: `weekly_stoch_k < 30 and not latest_vol_spike`. -/
def gateA (s : Snap) (_ : BonusCtx) : Bool :=
  Fl.lt s.weekly_stoch_rsi (.fin 30) && !s.volume_spike

/-- Stage B gate: `stoch_k > 50 and stoch_k > stoch_d and 50 < hlt < 80`. -/
def gateB (s : Snap) (_ : BonusCtx) : Bool :=
  Fl.gt s.stoch_rsi_k (.fin 50) && Fl.gt s.stoch_rsi_k s.stoch_rsi_d &&
  Fl.gt s.hlt (.fin 50) && Fl.lt s.hlt (.fin 80)

/-- Stage C gate: `stoch_k < stoch_d and 30 < hlt < 70`. -/
def gateC (s : Snap) (_ : BonusCtx) : Bool :=
  Fl.lt s.stoch_rsi_k s.stoch_rsi_d && Fl.gt s.hlt (.fin 30) && Fl.lt s.hlt (.fin 70)

/-- Stage D gate: `stoch_k > 80 and fg > 70 and vix < 15 and vol_spike`. -/
def gateD (s : Snap) (_ : BonusCtx) : Bool :=
  Fl.gt s.stoch_rsi_k (.fin 80) && Fl.gt s.fear_greed (.fin 70) &&
  Fl.lt s.vix (.fin 15) && s.volume_spike

/-- Stage D-BC gate: `fg >= 85 and vol_spike and stoch_k > 90`. -/
def gateDBC (s : Snap) (_ : BonusCtx) : Bool :=
  Fl.ge s.fear_greed (.fin 85) && s.volume_spike && Fl.gt s.stoch_rsi_k (.fin 90)

/-- Stage E gate: `stoch_k < 50 and stoch_d > stoch_k and fg < 50`. -/
def gateE (s : Snap) (_ : BonusCtx) : Bool :=
  Fl.lt s.stoch_rsi_k (.fin 50) && Fl.gt s.stoch_rsi_d s.stoch_rsi_k &&
  Fl.lt s.fear_greed (.fin 50)

/-- Stage F gate: `40 < fg < 60 and vol_spike == False and 30 < stoch_k < 70`. -/
def gateF (s : Snap) (_ : BonusCtx) : Bool :=
  Fl.lt (.fin 40) s.fear_greed && Fl.lt s.fear_greed (.fin 60) &&
  (s.volume_spike == false) && Fl.lt (.fin 30) s.stoch_rsi_k &&
  Fl.lt s.stoch_rsi_k (.fin 70)

/-- Stage G gate: `fg < 30 and stoch_k < 30 and vix > 20`. -/
def gateG (s : Snap) (_ : BonusCtx) : Bool :=
  Fl.lt s.fear_greed (.fin 30) && Fl.lt s.stoch_rsi_k (.fin 30) && Fl.gt s.vix (.fin 20)

/-- Stage G-SC gate: `fg <= 10 and vix > 30 and stoch_k < 20`. -/
def gateGSC (s : Snap) (_ : BonusCtx) : Bool :=
  Fl.le s.fear_greed (.fin 10) && Fl.gt s.vix (.fin 30) && Fl.lt s.stoch_rsi_k (.fin 20)

/-- The IEEE-754 double nearest 0.6 (`(0.6).as_integer_ratio()`). -/
def fl06 : ℚ := 5404319552844595 / 9007199254740992

/-- The IEEE-754 double nearest 0.7. -/
def fl07 : ℚ := 3152519739159347 / 4503599627370496

/-- The IEEE-754 double nearest 0.8.  It is also the exact value of the
double sum `0.6 + 0.2`, which rounds to the same double. -/
def fl08 : ℚ := 3602879701896397 / 4503599627370496

/-- The IEEE-754 double nearest 0.9. -/
def fl09 : ℚ := 8106479329266893 / 9007199254740992

/-- The exact value of the double sum `0.7 + 0.2`
(`0.8999999999999999`): one unit in the last place below the double 0.9,
so in the program a bonused stage C scores strictly less than a 0.9-base
rule.  The other bonus sums `0.8 + 0.2`, `0.7 + 0.3` and `0.9 + 0.1` all
round to exactly 1.0. -/
def fl07p02 : ℚ := 2026619832316723 / 2251799813685248

/-- The nine scoring rules, in the order the source evaluates them, with
their confidences as the exact doubles the program computes. -/
def ruleTable : List Rule :=
  [ { tag := "A", gate := gateA, base := fl08,
      bonus := fun s _ => Fl.lt s.hlt (.fin 30), bonusConf := 1 },
    { tag := "B", gate := gateB, base := fl07,
      bonus := fun s b => Fl.lt b.mean5 s.stoch_rsi_k, bonusConf := 1 },
    { tag := "C", gate := gateC, base := fl07,
      bonus := fun s _ => !s.volume_spike, bonusConf := fl07p02 },
    { tag := "D", gate := gateD, base := fl08,
      bonus := fun _ _ => false, bonusConf := fl08 },
    { tag := "D-BC", gate := gateDBC, base := fl09,
      bonus := fun _ b => Fl.lt b.lastClose (Fl.mul b.lastHigh (.fin (49/50))),
      bonusConf := 1 },
    { tag := "E", gate := gateE, base := fl07,
      bonus := fun _ b => Fl.lt b.pc5 (.fin (-(1/20))), bonusConf := 1 },
    { tag := "F", gate := gateF, base := fl06,
      bonus := fun _ b => Fl.gt b.pc3 (.fin (3/100)), bonusConf := fl08 },
    { tag := "G", gate := gateG, base := fl08,
      bonus := fun _ _ => false, bonusConf := fl08 },
    { tag := "G-SC", gate := gateGSC, base := fl09,
      bonus := fun s _ => s.volume_spike, bonusConf := 1 } ]

/-- `confidence_scores` as an ordered association list: the rules whose gate
fired, in table order, each with its resulting confidence
(base + bonus when the bonus condition holds). -/
def firedRules (s : Snap) (b : BonusCtx) : List (String × ℚ) :=
  ruleTable.filterMap fun r =>
    if r.gate s b then some (r.tag, if r.bonus s b then r.bonusConf else r.base)
    else none

/-- One row of the rule table as the spec's section 4.2 writes it:
tag, gate, decimal base confidence, bonus condition, decimal bonus amount. -/
structure SpecRule where
  tag : String
  gate : Snap → BonusCtx → Bool
  base : ℚ
  bonus : Snap → BonusCtx → Bool
  amt : ℚ

/-- Modelled from the spec: the spec's rule table with its decimal numbers
(same tags, gates and bonus conditions as the source). -/
def ruleTableSpec : List SpecRule :=
  [ { tag := "A", gate := gateA, base := 0.8,
      bonus := fun s _ => Fl.lt s.hlt (.fin 30), amt := 0.2 },
    { tag := "B", gate := gateB, base := 0.7,
      bonus := fun s b => Fl.lt b.mean5 s.stoch_rsi_k, amt := 0.3 },
    { tag := "C", gate := gateC, base := 0.7,
      bonus := fun s _ => !s.volume_spike, amt := 0.2 },
    { tag := "D", gate := gateD, base := 0.8,
      bonus := fun _ _ => false, amt := 0 },
    { tag := "D-BC", gate := gateDBC, base := 0.9,
      bonus := fun _ b => Fl.lt b.lastClose (Fl.mul b.lastHigh (.fin (49/50))),
      amt := 0.1 },
    { tag := "E", gate := gateE, base := 0.7,
      bonus := fun _ b => Fl.lt b.pc5 (.fin (-(1/20))), amt := 0.3 },
    { tag := "F", gate := gateF, base := 0.6,
      bonus := fun _ b => Fl.gt b.pc3 (.fin (3/100)), amt := 0.2 },
    { tag := "G", gate := gateG, base := 0.8,
      bonus := fun _ _ => false, amt := 0 },
    { tag := "G-SC", gate := gateGSC, base := 0.9,
      bonus := fun s _ => s.volume_spike, amt := 0.1 } ]

/-- Modelled from the spec: the fired rules with their resulting
confidences read as exact decimals, base plus bonus amount (so a bonused
stage C scores exactly 0.9).  This is how the claim's tie-break clause
reads the table; it is compared against the source-faithful
`firedRules`. -/
def firedRulesSpecDecimal (s : Snap) (b : BonusCtx) : List (String × ℚ) :=
  ruleTableSpec.filterMap fun r =>
    if r.gate s b then some (r.tag, r.base + if r.bonus s b then r.amt else 0)
    else none

/-- `max(confidence_scores.items(), key=lambda x: x[1])`: the first entry,
in insertion order, whose confidence is maximal. -/
def stepBest (b p : String × ℚ) : String × ℚ := if b.2 < p.2 then p else b

/-- Selection over the fired rules; `none` when no rule fired. -/
def pickBest : List (String × ℚ) → Option (String × ℚ)
  | [] => none
  | x :: xs => some (xs.foldl stepBest x)

/-- The static stage metadata (`self.stages`): display name and risk tier. -/
def stagesMeta (tag : String) : Option (String × String) :=
  if tag = "A" then some ("初動上昇（1波）", "low")
  else if tag = "B" then some ("加速上昇（3波）", "low")
  else if tag = "C" then some ("調整（4波）", "medium")
  else if tag = "D" then some ("過熱上昇（5波）", "high")
  else if tag = "D-BC" then some ("バイイングクライマックス", "very_high")
  else if tag = "E" then some ("調整A波", "high")
  else if tag = "F" then some ("戻りB波", "medium")
  else if tag = "G" then some ("本格下落C波", "high")
  else if tag = "G-SC" then some ("セリングクライマックス", "opportunity")
  else none

/-- The warning appended when no rule fires. -/
def defaultWarning : String :=
  "明確なステージを判断できませんでした。デフォルトのステージを表示しています。"

/-- The post-selection warnings keyed by the chosen stage. -/
def postWarnings (st : String) : List String :=
  if st = "D" ∨ st = "D-BC" then ["⚠️ 高値圏注意: トレンド転換リスクあり"]
  else if st = "G-SC" then ["✅ セリクラ可能性: 反発準備を検討"]
  else if st = "B" then ["🚀 トレンド発生: 最も収益性が高いゾーン"]
  else []

/-- The `results` dictionary returned by `analyze_stage`. -/
structure StageResult where
  current_stage : Option String
  stage_description : Option String
  confidence : ℚ
  warnings : List String
  indicators : Snap
deriving DecidableEq, Repr

/-- The selection and warning logic of `analyze_stage` after the latest
indicator values have been extracted. -/
def classify (s : Snap) (b : BonusCtx) : StageResult :=
  match pickBest (firedRules s b) with
  | some p =>
      { current_stage := some p.1
        stage_description := (stagesMeta p.1).map Prod.fst
        confidence := p.2
        warnings := postWarnings p.1
        indicators := s }
  | none =>
      { current_stage := some "C"
        stage_description := (stagesMeta "C").map Prod.fst
        confidence := 1/2
        warnings := [defaultWarning] ++ postWarnings "C"
        indicators := s }

/-- `data if 'stoch_rsi_k' in data.columns else calculate_all_indicators(data)`:
the frame `analyze_stage` actually reads its columns from. -/
def effectiveFrame (f : Frame) : Frame :=
  if f.stoch_rsi_k.isSome then f else calculate_all_indicators f

/-- `fear_greed` extraction: the last entry when the column exists,
otherwise the constant 50. -/
def lastFgOf (f : Frame) : Option Fl :=
  match f.fear_greed with
  | some c => c.getLast?
  | none => some (.fin 50)

/-- `vix` extraction: the last entry when the column exists, otherwise 15. -/
def lastVixOf (f : Frame) : Option Fl :=
  match f.vix with
  | some c => c.getLast?
  | none => some (.fin 15)

/-- The weekly stochastic-RSI proxy: the mean of the last 5 `%K` entries
when the frame has at least 5 rows, otherwise the latest `%K` itself. -/
def weeklyOf (f : Frame) (latestK : Fl) : Fl :=
  if 5 ≤ frameLen f then seriesMean (lastN 5 (f.stoch_rsi_k.getD []))
  else latestK

/-- Extraction of the latest indicator values and bonus inputs from the
frame.  Each `iloc[-1]` on an empty column is an `IndexError` in the
source, modelled as `none`. -/
def extractInput (f : Frame) : Option (Snap × BonusCtx) :=
  match (f.stoch_rsi_k.getD []).getLast?, (f.stoch_rsi_d.getD []).getLast?,
        (f.hlt.getD []).getLast?, (f.volume_spike.getD []).getLast?,
        (f.rsi.getD []).getLast?, lastFgOf f, lastVixOf f with
  | some k, some d, some h, some v, some r, some fg, some vx =>
      some
        ({ stoch_rsi_k := k, stoch_rsi_d := d, hlt := h, volume_spike := v,
           fear_greed := fg, vix := vx, weekly_stoch_rsi := weeklyOf f k,
           rsi := r },
         { mean5 := seriesMean (lastN 5 (f.stoch_rsi_k.getD []))
           lastClose := (f.dClose.getLast?).elim Fl.nan Fl.fin
           lastHigh := (f.dHigh.getLast?).elim Fl.nan Fl.fin
           pc5 := pctChangeLast f.dClose 5
           pc3 := pctChangeLast f.dClose 3 })
  | _, _, _, _, _, _, _ => none

/-- `analyze_stage`: computes indicators when missing, extracts the latest
values and classifies.  `none` models the `IndexError` raised on an empty
frame. -/
def analyze_stage (f : Frame) : Option StageResult :=
  (extractInput (effectiveFrame f)).map fun sb => classify sb.1 sb.2

/-- `data.iloc[:k]`: the first `k` rows of every column. -/
def frameTake (f : Frame) (k : ℕ) : Frame :=
  { dOpen := f.dOpen.take k
    dHigh := f.dHigh.take k
    dLow := f.dLow.take k
    dClose := f.dClose.take k
    dVolume := f.dVolume.take k
    vix := f.vix.map (fun l => l.take k)
    fear_greed := f.fear_greed.map (fun l => l.take k)
    stoch_rsi_k := f.stoch_rsi_k.map (fun l => l.take k)
    stoch_rsi_d := f.stoch_rsi_d.map (fun l => l.take k)
    hlt := f.hlt.map (fun l => l.take k)
    volume_spike := f.volume_spike.map (fun l => l.take k)
    sma_20 := f.sma_20.map (fun l => l.take k)
    sma_50 := f.sma_50.map (fun l => l.take k)
    rsi := f.rsi.map (fun l => l.take k)
    stage := f.stage.map (fun l => l.take k)
    stage_confidence := f.stage_confidence.map (fun l => l.take k) }

/-- One step of the historical labeling loop: below the 50-bar warm-up the
entry is (no stage, confidence 0); otherwise the classifier is run on the
prefix `[0, i]`. -/
def stageAtIndex (d : Frame) (i : ℕ) : Option (Option String × ℚ) :=
  if i < 50 then some (none, 0)
  else (analyze_stage (frameTake d (i + 1))).map fun r =>
    (r.current_stage, r.confidence)

/-- Sequencing of the per-bar results; `none` as soon as one step fails. -/
def optTraverse {α : Type} : List (Option α) → Option (List α)
  | [] => some []
  | o :: os => o.bind fun a => (optTraverse os).map fun l => a :: l

/-- `analyze_stage_history`: computes all indicators once, labels every bar
from its prefix, and attaches the `stage` and `stage_confidence` columns. -/
def analyze_stage_history (f : Frame) : Option Frame :=
  let d := calculate_all_indicators f
  (optTraverse ((List.range (frameLen d)).map (stageAtIndex d))).map fun ps =>
    { d with
      stage := some (ps.map Prod.fst)
      stage_confidence := some (ps.map Prod.snd) }

/-- The stage recorded at index `i` by a (possibly failed) history run. -/
def recordedStage (of : Option Frame) (i : ℕ) : Option (Option String) :=
  of.bind fun d => d.stage.bind fun l => l[i]?

/-- The confidence recorded at index `i`. -/
def recordedConf (of : Option Frame) (i : ℕ) : Option ℚ :=
  of.bind fun d => d.stage_confidence.bind fun l => l[i]?

/-- Well-formedness of an optional column: absent, or as long as the frame. -/
def optColOkB {α : Type} (o : Option (List α)) (n : ℕ) : Bool :=
  o.elim true (fun l => l.length == n)

/-- Well-formedness of an optional column, as a proposition. -/
def optColOk {α : Type} (o : Option (List α)) (n : ℕ) : Prop :=
  ∀ c, o = some c → c.length = n

theorem optColOk_iff {α : Type} (o : Option (List α)) (n : ℕ) :
    optColOkB o n = true ↔ optColOk o n := by
  cases o <;> simp [optColOkB, optColOk]

instance {α : Type} (o : Option (List α)) (n : ℕ) : Decidable (optColOk o n) :=
  decidable_of_iff (optColOkB o n = true) (optColOk_iff o n)

/-- Well-formedness of a frame: every column has the same number of rows
(automatic for a pandas DataFrame), and the indicator columns are attached
together (as `calculate_all_indicators` attaches them). -/
def WellFormed (f : Frame) : Prop :=
  f.dOpen.length = frameLen f ∧ f.dHigh.length = frameLen f ∧
  f.dLow.length = frameLen f ∧ f.dVolume.length = frameLen f ∧
  optColOk f.vix (frameLen f) ∧ optColOk f.fear_greed (frameLen f) ∧
  optColOk f.stoch_rsi_k (frameLen f) ∧ optColOk f.stoch_rsi_d (frameLen f) ∧
  optColOk f.hlt (frameLen f) ∧ optColOk f.volume_spike (frameLen f) ∧
  optColOk f.sma_20 (frameLen f) ∧ optColOk f.sma_50 (frameLen f) ∧
  optColOk f.rsi (frameLen f) ∧ optColOk f.stage (frameLen f) ∧
  optColOk f.stage_confidence (frameLen f) ∧
  (f.stoch_rsi_k = none ∨
    (f.stoch_rsi_d.isSome = true ∧ f.hlt.isSome = true ∧
      f.volume_spike.isSome = true ∧ f.rsi.isSome = true))

instance (f : Frame) : Decidable (WellFormed f) := by
  unfold WellFormed
  infer_instance

/-- Two frames agree on bars `[0, i]`: their raw OHLCV data and their
auxiliary `vix` / `fear_greed` inputs coincide up to index `i`. -/
def AgreeUpTo (f g : Frame) (i : ℕ) : Prop :=
  f.dOpen.take (i+1) = g.dOpen.take (i+1) ∧
  f.dHigh.take (i+1) = g.dHigh.take (i+1) ∧
  f.dLow.take (i+1) = g.dLow.take (i+1) ∧
  f.dClose.take (i+1) = g.dClose.take (i+1) ∧
  f.dVolume.take (i+1) = g.dVolume.take (i+1) ∧
  f.vix.map (fun l => l.take (i+1)) = g.vix.map (fun l => l.take (i+1)) ∧
  f.fear_greed.map (fun l => l.take (i+1)) = g.fear_greed.map (fun l => l.take (i+1))

instance (f g : Frame) (i : ℕ) : Decidable (AgreeUpTo f g i) := by
  unfold AgreeUpTo
  infer_instance

/-!
Theorems.
-/

theorem stepBest_cases (b p : String × ℚ) :
    (b.2 < p.2 ∧ stepBest b p = p) ∨ (¬ b.2 < p.2 ∧ stepBest b p = b) := by
  by_cases h : b.2 < p.2 <;> simp [stepBest, h]

theorem foldl_stepBest_spec (xs : List (String × ℚ)) (acc : String × ℚ) :
    (xs.foldl stepBest acc = acc ∧ ∀ p ∈ xs, p.2 ≤ acc.2) ∨
    (∃ k, ∃ hk : k < xs.length, xs.foldl stepBest acc = xs[k] ∧
      acc.2 < xs[k].2 ∧
      (∀ j, ∀ hj : j < xs.length, xs[j].2 ≤ xs[k].2) ∧
      (∀ j, ∀ hj : j < xs.length, j < k → xs[j].2 < xs[k].2)) := by
  induction xs generalizing acc with
  | nil => exact Or.inl ⟨rfl, by simp⟩
  | cons y ys ih =>
    rw [List.foldl_cons]
    rcases stepBest_cases acc y with ⟨hy, hstep⟩ | ⟨hy, hstep⟩
    · rw [hstep]
      rcases ih y with ⟨hr, hall⟩ | ⟨k, hk, hr, hgt, hmax, hmin⟩
      · refine Or.inr ⟨0, by simp, by simpa using hr, by simpa using hy, ?_, ?_⟩
        · intro j hj
          cases j with
          | zero => simp
          | succ j =>
            simp only [List.getElem_cons_succ, List.getElem_cons_zero]
            exact hall _ (ys.getElem_mem _)
        · intro j hj hj0
          omega
      · refine Or.inr ⟨k + 1, by simpa using hk, by simpa using hr, ?_, ?_, ?_⟩
        · simp only [List.getElem_cons_succ]
          exact hy.trans hgt
        · intro j hj
          cases j with
          | zero => simp only [List.getElem_cons_zero, List.getElem_cons_succ]
                    exact le_of_lt hgt
          | succ j => simpa using hmax j (by simpa using hj)
        · intro j hj hjk
          cases j with
          | zero => simp only [List.getElem_cons_zero, List.getElem_cons_succ]
                    exact hgt
          | succ j => simpa using hmin j (by simpa using hj) (by omega)
    · rw [hstep]
      rcases ih acc with ⟨hr, hall⟩ | ⟨k, hk, hr, hgt, hmax, hmin⟩
      · refine Or.inl ⟨hr, ?_⟩
        intro p hp
        rcases List.mem_cons.mp hp with h | h
        · exact h ▸ le_of_not_lt hy
        · exact hall p h
      · refine Or.inr ⟨k + 1, by simpa using hk, by simpa using hr, ?_, ?_, ?_⟩
        · simp only [List.getElem_cons_succ]
          exact hgt
        · intro j hj
          cases j with
          | zero => simp only [List.getElem_cons_zero, List.getElem_cons_succ]
                    exact le_of_lt (lt_of_le_of_lt (le_of_not_lt hy) hgt)
          | succ j => simpa using hmax j (by simpa using hj)
        · intro j hj hjk
          cases j with
          | zero => simp only [List.getElem_cons_zero, List.getElem_cons_succ]
                    exact lt_of_le_of_lt (le_of_not_lt hy) hgt
          | succ j => simpa using hmin j (by simpa using hj) (by omega)

theorem pickBest_spec (l : List (String × ℚ)) (hne : l ≠ []) :
    ∃ k, ∃ hk : k < l.length, pickBest l = some l[k] ∧
      (∀ j, ∀ hj : j < l.length, l[j].2 ≤ l[k].2) ∧
      (∀ j, ∀ hj : j < l.length, j < k → l[j].2 < l[k].2) := by
  match l with
  | [] => exact absurd rfl hne
  | x :: xs =>
    rcases foldl_stepBest_spec xs x with ⟨hr, hall⟩ | ⟨k, hk, hr, hgt, hmax, hmin⟩
    · refine ⟨0, by simp, ?_, ?_, ?_⟩
      · simp [pickBest, hr]
      · intro j hj
        cases j with
        | zero => simp
        | succ j =>
          simp only [List.getElem_cons_succ, List.getElem_cons_zero]
          exact hall _ (xs.getElem_mem _)
      · intro j hj hj0
        omega
    · refine ⟨k + 1, by simpa using hk, ?_, ?_, ?_⟩
      · simp [pickBest, hr]
      · intro j hj
        cases j with
        | zero => simp only [List.getElem_cons_zero, List.getElem_cons_succ]
                  exact le_of_lt hgt
        | succ j => simpa using hmax j (by simpa using hj)
      · intro j hj hjk
        cases j with
        | zero => simp only [List.getElem_cons_zero, List.getElem_cons_succ]
                  exact hgt
        | succ j => simpa using hmin j (by simpa using hj) (by omega)

theorem pickBest_mem {l : List (String × ℚ)} {p : String × ℚ}
    (h : pickBest l = some p) : p ∈ l := by
  match l with
  | [] => simp [pickBest] at h
  | x :: xs =>
    rcases pickBest_spec (x :: xs) (by simp) with ⟨k, hk, hr, -, -⟩
    rw [hr] at h
    obtain rfl : p = (x :: xs)[k] := by simpa using h.symm
    exact (x :: xs).getElem_mem hk

/-- The first-maximum selection property of `analyze_stage` over the ordered
fired-rule list (C1's conclusion). -/
def FirstMaxSelection (s : Snap) (b : BonusCtx) : Prop :=
  ∃ k, ∃ hk : k < (firedRules s b).length,
    (classify s b).current_stage = some ((firedRules s b)[k]).1 ∧
    (classify s b).confidence = ((firedRules s b)[k]).2 ∧
    (∀ j, ∀ hj : j < (firedRules s b).length,
      ((firedRules s b)[j]).2 ≤ ((firedRules s b)[k]).2) ∧
    (∀ j, ∀ hj : j < (firedRules s b).length, j < k →
      ((firedRules s b)[j]).2 < ((firedRules s b)[k]).2)

/-- C1 (amended): whenever at least one rule gate fires, `analyze_stage`
returns the fired rule of highest resulting confidence as the program
computes it — the IEEE-754 double value of base plus bonus — and a tie on
that double value is resolved in favour of the rule listed first in the
fixed table order A, B, C, D, D-BC, E, F, G, G-SC.  The amendment: because
the double sum 0.7 + 0.2 is strictly below the double 0.9, a spec-level
(decimal) tie between bonused stage C and a 0.9-base rule is not a tie in
the program, and the later rule wins — see the counterexample. -/
theorem analyze_stage_first_max_selection (s : Snap) (b : BonusCtx)
    (hne : firedRules s b ≠ []) :
    ruleTable.map Rule.tag = ["A", "B", "C", "D", "D-BC", "E", "F", "G", "G-SC"] ∧
    FirstMaxSelection s b := by
  refine ⟨rfl, ?_⟩
  obtain ⟨k, hk, hr, hmax, hmin⟩ := pickBest_spec (firedRules s b) hne
  refine ⟨k, hk, ?_, ?_, hmax, hmin⟩ <;> · unfold classify; rw [hr]

/-- An all-NaN indicator snapshot (the volume-spike flag stays boolean). -/
def nanSnap (v : Bool) : Snap :=
  { stoch_rsi_k := .nan, stoch_rsi_d := .nan, hlt := .nan, volume_spike := v,
    fear_greed := .nan, vix := .nan, weekly_stoch_rsi := .nan, rsi := .nan }

/-- An all-NaN bonus context. -/
def ctx0 : BonusCtx :=
  { mean5 := .nan, lastClose := .nan, lastHigh := .nan, pc5 := .nan, pc3 := .nan }

/-- The synthetic snapshot of spec section 8: stochK=20, stochD=25,
weeklyStochK=20, no volume spike, hlt=20. -/
def sampleSnapA : Snap :=
  { stoch_rsi_k := .fin 20, stoch_rsi_d := .fin 25, hlt := .fin 20,
    volume_spike := false, fear_greed := .fin 50, vix := .fin 15,
    weekly_stoch_rsi := .fin 20, rsi := .fin 50 }

/-- A bonus context for the synthetic snapshot. -/
def sampleCtxA : BonusCtx :=
  { mean5 := .fin 20, lastClose := .fin 1, lastHigh := .fin 1,
    pc5 := .fin 0, pc3 := .fin 0 }

/-- Witness for C1 at the synthetic stage-A snapshot of spec section 8. -/
theorem analyze_stage_first_max_selection_witness :
    firedRules sampleSnapA sampleCtxA ≠ [] ∧
    (ruleTable.map Rule.tag = ["A", "B", "C", "D", "D-BC", "E", "F", "G", "G-SC"] ∧
      FirstMaxSelection sampleSnapA sampleCtxA) :=
  ⟨by decide, analyze_stage_first_max_selection sampleSnapA sampleCtxA (by decide)⟩

/-- A snapshot firing C (with bonus), E, G and G-SC (without bonus):
stochK=10, stochD=15, hlt=50, no volume spike, fearGreed=5, vix=35. -/
def snapFlip : Snap :=
  { stoch_rsi_k := .fin 10, stoch_rsi_d := .fin 15, hlt := .fin 50,
    volume_spike := false, fear_greed := .fin 5, vix := .fin 35,
    weekly_stoch_rsi := .fin 50, rsi := .fin 50 }

/-- A bonus context firing no bonus condition at `snapFlip`. -/
def ctxFlip : BonusCtx :=
  { mean5 := .fin 50, lastClose := .fin 1, lastHigh := .fin 1,
    pc5 := .fin 0, pc3 := .fin 0 }

/-- C1 counterexample: at `snapFlip` the spec's decimal reading of the
table puts bonused stage C (0.7 + 0.2 = 0.9, listed first) in a tie with
stage G-SC (0.9), so the claim demands stage C; the program stores
0.7 + 0.2 as the double 0.8999999999999999 < 0.9 and returns G-SC. -/
theorem first_max_selection_counterexample :
    firedRulesSpecDecimal snapFlip ctxFlip =
      [("C", 9/10), ("E", 7/10), ("G", 4/5), ("G-SC", 9/10)] ∧
    (classify snapFlip ctxFlip).current_stage = some "G-SC" ∧
    (classify snapFlip ctxFlip).current_stage ≠ some "C" := by decide

/-- C4: when no rule gate fires (in particular for an all-NaN snapshot),
`analyze_stage` falls back to stage C with confidence 0.5 and the default
"could not determine a clear stage" warning is present. -/
theorem analyze_stage_default_when_no_rule :
    (∀ (s : Snap) (b : BonusCtx), firedRules s b = [] →
      (classify s b).current_stage = some "C" ∧
      (classify s b).confidence = 1/2 ∧
      defaultWarning ∈ (classify s b).warnings) ∧
    (∀ (v : Bool) (b : BonusCtx), firedRules (nanSnap v) b = []) := by
  constructor
  · intro s b h
    unfold classify
    rw [h]
    refine ⟨rfl, rfl, ?_⟩
    show defaultWarning ∈ [defaultWarning] ++ postWarnings "C"
    simp
  · intro v b
    simp [firedRules, ruleTable, nanSnap, gateA, gateB, gateC, gateD, gateDBC,
      gateE, gateF, gateG, gateGSC]

/-- Witness for C4 at the all-NaN snapshot. -/
theorem analyze_stage_default_when_no_rule_witness :
    firedRules (nanSnap false) ctx0 = [] ∧
    (classify (nanSnap false) ctx0).current_stage = some "C" ∧
    (classify (nanSnap false) ctx0).confidence = 1/2 ∧
    defaultWarning ∈ (classify (nanSnap false) ctx0).warnings := by
  have h := analyze_stage_default_when_no_rule
  exact ⟨h.2 false ctx0, h.1 (nanSnap false) ctx0 (h.2 false ctx0)⟩

/-- C6: a rule gate never fires when an indicator it compares against is
NaN (every gate is a total boolean function, so no evaluation can fail). -/
theorem gates_false_on_nan (s : Snap) (b : BonusCtx) :
    (s.weekly_stoch_rsi.isNan = true → gateA s b = false) ∧
    (s.stoch_rsi_k.isNan = true ∨ s.stoch_rsi_d.isNan = true ∨
      s.hlt.isNan = true → gateB s b = false) ∧
    (s.stoch_rsi_k.isNan = true ∨ s.stoch_rsi_d.isNan = true ∨
      s.hlt.isNan = true → gateC s b = false) ∧
    (s.stoch_rsi_k.isNan = true ∨ s.fear_greed.isNan = true ∨
      s.vix.isNan = true → gateD s b = false) ∧
    (s.fear_greed.isNan = true ∨ s.stoch_rsi_k.isNan = true →
      gateDBC s b = false) ∧
    (s.stoch_rsi_k.isNan = true ∨ s.stoch_rsi_d.isNan = true ∨
      s.fear_greed.isNan = true → gateE s b = false) ∧
    (s.fear_greed.isNan = true ∨ s.stoch_rsi_k.isNan = true →
      gateF s b = false) ∧
    (s.fear_greed.isNan = true ∨ s.stoch_rsi_k.isNan = true ∨
      s.vix.isNan = true → gateG s b = false) ∧
    (s.fear_greed.isNan = true ∨ s.vix.isNan = true ∨
      s.stoch_rsi_k.isNan = true → gateGSC s b = false) := by
  refine ⟨?_, ?_, ?_, ?_, ?_, ?_, ?_, ?_, ?_⟩
  · intro h; rw [Fl.isNan_iff] at h; simp [gateA, h]
  · intro h; rcases h with h | h | h <;> rw [Fl.isNan_iff] at h <;> simp [gateB, h]
  · intro h; rcases h with h | h | h <;> rw [Fl.isNan_iff] at h <;> simp [gateC, h]
  · intro h; rcases h with h | h | h <;> rw [Fl.isNan_iff] at h <;> simp [gateD, h]
  · intro h; rcases h with h | h <;> rw [Fl.isNan_iff] at h <;> simp [gateDBC, h]
  · intro h; rcases h with h | h | h <;> rw [Fl.isNan_iff] at h <;> simp [gateE, h]
  · intro h; rcases h with h | h <;> rw [Fl.isNan_iff] at h <;> simp [gateF, h]
  · intro h; rcases h with h | h | h <;> rw [Fl.isNan_iff] at h <;> simp [gateG, h]
  · intro h; rcases h with h | h | h <;> rw [Fl.isNan_iff] at h <;> simp [gateGSC, h]

/-- Witness for C6 at the all-NaN snapshot. -/
theorem gates_false_on_nan_witness :
    gateA (nanSnap true) ctx0 = false ∧ gateB (nanSnap true) ctx0 = false ∧
    gateC (nanSnap true) ctx0 = false ∧ gateD (nanSnap true) ctx0 = false ∧
    gateDBC (nanSnap true) ctx0 = false ∧ gateE (nanSnap true) ctx0 = false ∧
    gateF (nanSnap true) ctx0 = false ∧ gateG (nanSnap true) ctx0 = false ∧
    gateGSC (nanSnap true) ctx0 = false := by
  have h := gates_false_on_nan (nanSnap true) ctx0
  exact ⟨h.1 (by decide), h.2.1 (by decide), h.2.2.1 (by decide),
    h.2.2.2.1 (by decide), h.2.2.2.2.1 (by decide), h.2.2.2.2.2.1 (by decide),
    h.2.2.2.2.2.2.1 (by decide), h.2.2.2.2.2.2.2.1 (by decide),
    h.2.2.2.2.2.2.2.2 (by decide)⟩

theorem firedRules_conf_bounds (s : Snap) (b : BonusCtx) :
    ∀ p ∈ firedRules s b, 0 ≤ p.2 ∧ p.2 ≤ 1 := by
  intro p hp
  rw [firedRules, List.mem_filterMap] at hp
  obtain ⟨r, hr, hif⟩ := hp
  split at hif
  · obtain rfl : (r.tag, if r.bonus s b then r.bonusConf else r.base) = p := by
      simpa using hif
    simp only [ruleTable, List.mem_cons, List.not_mem_nil, or_false] at hr
    rcases hr with rfl | rfl | rfl | rfl | rfl | rfl | rfl | rfl | rfl <;>
      · dsimp only
        split <;> norm_num [fl06, fl07, fl08, fl09, fl07p02]
  · exact absurd hif (by simp)

theorem classify_conf_bounds (s : Snap) (b : BonusCtx) :
    0 ≤ (classify s b).confidence ∧ (classify s b).confidence ≤ 1 := by
  unfold classify
  cases hpb : pickBest (firedRules s b) with
  | none => norm_num
  | some p =>
    simpa using firedRules_conf_bounds s b p (pickBest_mem hpb)

/-- C7: every classification result carries a confidence in the unit
interval: no combination of base confidence and bonus, and not the default
fallback, can leave `[0, 1]`. -/
theorem analyze_stage_confidence_in_unit (f : Frame) (r : StageResult)
    (h : analyze_stage f = some r) :
    0 ≤ r.confidence ∧ r.confidence ≤ 1 := by
  rw [analyze_stage] at h
  obtain ⟨⟨s, b⟩, -, rfl⟩ := Option.map_eq_some'.mp h
  exact classify_conf_bounds s b

/-- A one-row frame (a single bar with all fields 1). -/
def oneF : Frame := { dOpen := [1], dHigh := [1], dLow := [1], dClose := [1], dVolume := [1] }

/-- The classification result the model produces on `oneF`. -/
def oneFResult : StageResult :=
  { current_stage := some "C"
    stage_description := some "調整（4波）"
    confidence := 1/2
    warnings := [defaultWarning]
    indicators :=
      { stoch_rsi_k := .nan, stoch_rsi_d := .nan, hlt := .nan,
        volume_spike := false, fear_greed := .fin 50, vix := .fin 15,
        weekly_stoch_rsi := .nan, rsi := .nan } }

/-- Witness for C7 on the one-row frame. -/
theorem analyze_stage_confidence_in_unit_witness :
    analyze_stage oneF = some oneFResult ∧
    0 ≤ oneFResult.confidence ∧ oneFResult.confidence ≤ 1 := by
  have h : analyze_stage oneF = some oneFResult := by decide
  exact ⟨h, analyze_stage_confidence_in_unit oneF oneFResult h⟩

theorem colAt_getD (l : List ℚ) (m : ℕ) (h : m < l.length) :
    colAt l m = .fin (l.getD m 0) := by
  rw [colAt, List.getElem?_eq_getElem h]
  simp [List.getD_eq_getElem?_getD, List.getElem?_eq_getElem h]

theorem Fl.sub_fin (a b : ℚ) : Fl.sub (.fin a) (.fin b) = .fin (a - b) := by
  rw [Fl.sub, Fl.neg, Fl.add, ← sub_eq_add_neg]

theorem rollWindow_mem {f : ℕ → Fl} {w j : ℕ} {x : Fl}
    (hx : x ∈ rollWindow f w j) : ∃ m, j + 1 - w ≤ m ∧ m ≤ j ∧ x = f m := by
  rw [rollWindow] at hx
  obtain ⟨y, hy, rfl⟩ := List.mem_map.mp hx
  obtain ⟨i, hi, rfl⟩ := List.mem_iff_getElem.mp hy
  simp only [List.getElem_drop, List.getElem_range]
  simp only [List.length_drop, List.length_range] at hi
  exact ⟨j + 1 - w + i, Nat.le_add_right _ _, by omega, rfl⟩

theorem length_rollWindow (f : ℕ → Fl) (w j : ℕ) :
    (rollWindow f w j).length = (j + 1) - (j + 1 - w) := by
  simp [rollWindow]

theorem foldl_add_zeros :
    ∀ (L : List Fl) (a : ℚ), (∀ x ∈ L, x = .fin 0) →
      L.foldl Fl.add (.fin a) = .fin a
  | [], _, _ => rfl
  | x :: xs, a, h => by
    have hx : x = .fin 0 := h x (by simp)
    subst hx
    rw [List.foldl_cons]
    have ha : Fl.add (.fin a) (.fin 0) = .fin a := by rw [Fl.add, add_zero]
    rw [ha]
    exact foldl_add_zeros xs a (fun y hy => h y (by simp [hy]))

theorem foldl_add_pos :
    ∀ (L : List Fl) (a : ℚ), (∀ x ∈ L, ∃ q, x = .fin q ∧ 0 < q) →
      ∃ s, L.foldl Fl.add (.fin a) = .fin s ∧ a ≤ s ∧ (L ≠ [] → a < s)
  | [], a, _ => ⟨a, rfl, le_refl a, fun h => absurd rfl h⟩
  | x :: xs, a, h => by
    obtain ⟨q, rfl, hq⟩ := h x (by simp)
    rw [List.foldl_cons]
    have ha : Fl.add (.fin a) (.fin q) = .fin (a + q) := by rw [Fl.add]
    rw [ha]
    obtain ⟨s, hs, hle, -⟩ :=
      foldl_add_pos xs (a + q) (fun y hy => h y (by simp [hy]))
    exact ⟨s, hs, by linarith, fun _ => by linarith⟩

theorem rollingMean_zeros (f : ℕ → Fl) (w j : ℕ) (hw : w ≠ 0)
    (hjw : ¬ j + 1 < w) (h : ∀ m, j + 1 - w ≤ m → m ≤ j → f m = .fin 0) :
    rollingMean f w j = .fin 0 := by
  have hall : ∀ x ∈ rollWindow f w j, x = .fin 0 := by
    intro x hx
    obtain ⟨m, hm1, hm2, rfl⟩ := rollWindow_mem hx
    exact h m hm1 hm2
  have hnan : (rollWindow f w j).any Fl.isNan = false := by
    rw [List.any_eq_false]
    intro x hx
    rw [hall x hx]
    simp [Fl.isNan]
  rw [rollingMean, if_neg (by simp [hjw, hnan])]
  rw [show flSum (rollWindow f w j) = .fin 0 from foldl_add_zeros _ 0 hall]
  rw [Fl.div]
  simp [Nat.cast_ne_zero.mpr hw]

theorem rollingMean_pos (f : ℕ → Fl) (w j : ℕ) (hw : 0 < w)
    (hjw : ¬ j + 1 < w)
    (h : ∀ m, j + 1 - w ≤ m → m ≤ j → ∃ q, f m = .fin q ∧ 0 < q) :
    ∃ g, rollingMean f w j = .fin g ∧ 0 < g := by
  have hall : ∀ x ∈ rollWindow f w j, ∃ q, x = .fin q ∧ 0 < q := by
    intro x hx
    obtain ⟨m, hm1, hm2, rfl⟩ := rollWindow_mem hx
    exact h m hm1 hm2
  have hnan : (rollWindow f w j).any Fl.isNan = false := by
    rw [List.any_eq_false]
    intro x hx
    obtain ⟨q, rfl, -⟩ := hall x hx
    simp [Fl.isNan]
  have hne : rollWindow f w j ≠ [] := by
    rw [← List.length_pos, length_rollWindow]
    omega
  obtain ⟨s, hs, hle, hlt⟩ := foldl_add_pos (rollWindow f w j) 0 hall
  have hspos : 0 < s := hlt hne
  refine ⟨s / (w : ℚ), ?_, by positivity⟩
  rw [rollingMean, if_neg (by simp [hjw, hnan])]
  rw [show flSum (rollWindow f w j) = .fin s from hs, Fl.div]
  simp [Nat.cast_ne_zero.mpr hw.ne']

theorem rsi_of_zero_loss (l : List ℚ) (j : ℕ) (g : ℚ)
    (hL : rollingMean (lossAt l) 14 j = .fin 0)
    (hG : rollingMean (gainAt l) 14 j = .fin g) (hg : 0 < g) :
    rsiAt l j = .fin 100 := by
  rw [rsiAt, hG, hL]
  rw [show Fl.div (.fin g) (.fin 0) = .pinf by
    rw [Fl.div]; simp [hg.ne', hg]]
  rw [show Fl.add (.fin 1) .pinf = .pinf from rfl]
  rw [show Fl.div (.fin 100) .pinf = .fin 0 from rfl]
  rw [Fl.sub_fin]
  norm_num

/-- A strictly increasing list of rationals, as an executable check. -/
def strictIncB : List ℚ → Bool
  | [] => true
  | [_] => true
  | a :: b :: t => decide (a < b) && strictIncB (b :: t)

theorem strictIncB_get :
    ∀ (l : List ℚ), strictIncB l = true →
      ∀ m, m + 1 < l.length → l.getD m 0 < l.getD (m + 1) 0
  | [], _, m, hm => by simp at hm
  | [_], _, m, hm => by simp at hm
  | a :: b :: t, h, 0, _ => by
    simp only [strictIncB, Bool.and_eq_true, decide_eq_true_eq] at h
    simpa using h.1
  | a :: b :: t, h, m + 1, hm => by
    simp only [strictIncB, Bool.and_eq_true, decide_eq_true_eq] at h
    have ih := strictIncB_get (b :: t) h.2 m (by simpa using hm)
    simpa using ih

theorem deltaAt_pos (l : List ℚ) (m : ℕ) (h1 : m ≠ 0) (h2 : m < l.length)
    (hmono : strictIncB l = true) :
    ∃ d, deltaAt l m = .fin d ∧ 0 < d := by
  obtain ⟨m', rfl⟩ : ∃ m', m = m' + 1 := ⟨m - 1, by omega⟩
  have hlt := strictIncB_get l hmono m' h2
  refine ⟨l.getD (m' + 1) 0 - l.getD m' 0, ?_, by linarith⟩
  rw [deltaAt, if_neg h1]
  rw [colAt_getD l (m' + 1) h2, show m' + 1 - 1 = m' from rfl,
    colAt_getD l m' (by omega), Fl.sub_fin]

theorem lossAt_of_inc (l : List ℚ) (m : ℕ) (hm : m < l.length)
    (hmono : strictIncB l = true) : lossAt l m = .fin 0 := by
  by_cases h0 : m = 0
  · subst h0
    rw [lossAt, deltaAt, if_pos rfl]
    rw [show Fl.lt .nan (.fin 0) = false from rfl]
    simp [Fl.neg]
  · obtain ⟨d, hd, hdpos⟩ := deltaAt_pos l m h0 hm hmono
    rw [lossAt, hd]
    rw [show Fl.lt (.fin d) (.fin 0) = false by
      simp [Fl.lt]; linarith]
    simp [Fl.neg]

theorem gainAt_of_inc (l : List ℚ) (m : ℕ) (h1 : m ≠ 0) (hm : m < l.length)
    (hmono : strictIncB l = true) : ∃ q, gainAt l m = .fin q ∧ 0 < q := by
  obtain ⟨d, hd, hdpos⟩ := deltaAt_pos l m h1 hm hmono
  refine ⟨d, ?_, hdpos⟩
  rw [gainAt, hd, if_pos]
  simp [Fl.lt, hdpos]

/-- C3 (amended): whenever the 14-bar rolling mean loss is exactly 0 and the
rolling mean gain is a positive finite value, the RSI saturates to exactly
100 (no error value); in particular a strictly monotonically increasing
closing-price series of length at least 30 has RSI(14) equal to 100 at the
final bars (every bar past the first 14).  The amendment: with a zero mean
gain as well (e.g. a constant price series), the quotient is 0/0, which is
NaN, not 100 — see the counterexample. -/
theorem rsi_saturates_at_zero_loss :
    (∀ (l : List ℚ) (j : ℕ) (g : ℚ),
      rollingMean (lossAt l) 14 j = .fin 0 →
      rollingMean (gainAt l) 14 j = .fin g → 0 < g →
      rsiAt l j = .fin 100) ∧
    (∀ l : List ℚ, 30 ≤ l.length → strictIncB l = true →
      ∀ j, 14 ≤ j → j < l.length → rsiAt l j = .fin 100) := by
  constructor
  · exact rsi_of_zero_loss
  · intro l h30 hmono j hj hjl
    have hL : rollingMean (lossAt l) 14 j = .fin 0 := by
      refine rollingMean_zeros _ 14 j (by norm_num) (by omega) ?_
      intro m _ hm2
      exact lossAt_of_inc l m (by omega) hmono
    obtain ⟨g, hG, hg⟩ : ∃ g, rollingMean (gainAt l) 14 j = .fin g ∧ 0 < g := by
      refine rollingMean_pos _ 14 j (by norm_num) (by omega) ?_
      intro m hm1 hm2
      exact gainAt_of_inc l m (by omega) (by omega) hmono
    exact rsi_of_zero_loss l j g hL hG hg

/-- A constant price series: 14 bars at price 5. -/
def c14 : List ℚ := List.replicate 14 5

/-- A strictly increasing price series of length 30. -/
def up30 : List ℚ := (List.range 30).map (fun i => (i : ℚ) + 1)

/-- C3 counterexample: on a constant price series the 14-bar mean loss is
exactly 0 (and the mean gain is 0 too), and the RSI is NaN, not 100 —
the claim as stated fails at this input. -/
theorem rsi_zero_loss_counterexample :
    rollingMean (lossAt c14) 14 13 = .fin 0 ∧
    rollingMean (gainAt c14) 14 13 = .fin 0 ∧
    rsiAt c14 13 ≠ .fin 100 ∧ rsiAt c14 13 = .nan := by decide

/-- Witness for C3 on the strictly increasing series. -/
theorem rsi_saturates_at_zero_loss_witness :
    (rollingMean (lossAt up30) 14 29 = .fin 0 ∧
      rollingMean (gainAt up30) 14 29 = .fin 1 ∧
      rsiAt up30 29 = .fin 100) ∧
    (30 ≤ up30.length ∧ strictIncB up30 = true ∧
      rsiAt up30 20 = .fin 100) := by
  have h := rsi_saturates_at_zero_loss
  have hL : rollingMean (lossAt up30) 14 29 = .fin 0 := by decide
  have hG : rollingMean (gainAt up30) 14 29 = .fin 1 := by decide
  exact ⟨⟨hL, hG, h.1 up30 29 1 hL hG one_pos⟩,
    by decide, by decide,
    h.2 up30 (by decide) (by decide) 20 (by norm_num) (by decide)⟩

theorem frameLen_calc (f : Frame) :
    frameLen (calculate_all_indicators f) = frameLen f := rfl

theorem length_colOf {α : Type} (n : ℕ) (F : ℕ → α) : (colOf n F).length = n := by
  simp [colOf]

theorem extractInput_isSome (p : Frame)
    (hk : ∃ c, p.stoch_rsi_k = some c ∧ c ≠ [])
    (hd : ∃ c, p.stoch_rsi_d = some c ∧ c ≠ [])
    (hh : ∃ c, p.hlt = some c ∧ c ≠ [])
    (hv : ∃ c, p.volume_spike = some c ∧ c ≠ [])
    (hr : ∃ c, p.rsi = some c ∧ c ≠ [])
    (hfg : ∀ c, p.fear_greed = some c → c ≠ [])
    (hvx : ∀ c, p.vix = some c → c ≠ []) :
    ∃ sb, extractInput p = some sb := by
  obtain ⟨ck, hck, hck0⟩ := hk
  obtain ⟨cd, hcd, hcd0⟩ := hd
  obtain ⟨ch, hch, hch0⟩ := hh
  obtain ⟨cv, hcv, hcv0⟩ := hv
  obtain ⟨cr, hcr, hcr0⟩ := hr
  obtain ⟨vk, hvk⟩ := Option.isSome_iff_exists.mp
    (show (p.stoch_rsi_k.getD []).getLast?.isSome by
      rw [hck]; exact List.getLast?_isSome.mpr hck0)
  obtain ⟨vd, hvd⟩ := Option.isSome_iff_exists.mp
    (show (p.stoch_rsi_d.getD []).getLast?.isSome by
      rw [hcd]; exact List.getLast?_isSome.mpr hcd0)
  obtain ⟨vh, hvh⟩ := Option.isSome_iff_exists.mp
    (show (p.hlt.getD []).getLast?.isSome by
      rw [hch]; exact List.getLast?_isSome.mpr hch0)
  obtain ⟨vv, hvv⟩ := Option.isSome_iff_exists.mp
    (show (p.volume_spike.getD []).getLast?.isSome by
      rw [hcv]; exact List.getLast?_isSome.mpr hcv0)
  obtain ⟨vr, hvr⟩ := Option.isSome_iff_exists.mp
    (show (p.rsi.getD []).getLast?.isSome by
      rw [hcr]; exact List.getLast?_isSome.mpr hcr0)
  obtain ⟨vf, hvf⟩ : ∃ u, lastFgOf p = some u := by
    unfold lastFgOf
    cases hc : p.fear_greed with
    | none => exact ⟨_, rfl⟩
    | some c =>
      exact Option.isSome_iff_exists.mp (List.getLast?_isSome.mpr (hfg c hc))
  obtain ⟨vx, hvx2⟩ : ∃ u, lastVixOf p = some u := by
    unfold lastVixOf
    cases hc : p.vix with
    | none => exact ⟨_, rfl⟩
    | some c =>
      exact Option.isSome_iff_exists.mp (List.getLast?_isSome.mpr (hvx c hc))
  have hs : (extractInput p).isSome := by
    unfold extractInput
    rw [hvk, hvd, hvh, hvv, hvr, hvf, hvx2]
    rfl
  exact Option.isSome_iff_exists.mp hs

theorem analyze_stage_isSome (f : Frame) (hwf : WellFormed f)
    (hn : 0 < frameLen f) : ∃ r, analyze_stage f = some r := by
  obtain ⟨-, -, -, -, hvix, hfg, hK, hD, hH, hV, -, -, hR, -, -, hcoh⟩ := hwf
  have hne : ∀ (c : List Fl), c.length = frameLen f → c ≠ [] := by
    intro c hc
    rw [← List.length_pos, hc]
    exact hn
  have hsb : ∃ sb, extractInput (effectiveFrame f) = some sb := by
    unfold effectiveFrame
    cases hk : f.stoch_rsi_k with
    | none =>
      rw [if_neg (by simp [hk])]
      refine extractInput_isSome _ ?_ ?_ ?_ ?_ ?_ ?_ ?_
      · exact ⟨_, rfl, by rw [← List.length_pos, length_colOf]; exact hn⟩
      · exact ⟨_, rfl, by rw [← List.length_pos, length_colOf]; exact hn⟩
      · exact ⟨_, rfl, by rw [← List.length_pos, length_colOf]; exact hn⟩
      · exact ⟨_, rfl, by rw [← List.length_pos, length_colOf]; exact hn⟩
      · exact ⟨_, rfl, by rw [← List.length_pos, length_colOf]; exact hn⟩
      · exact fun c hc => hne c (hfg c hc)
      · exact fun c hc => hne c (hvix c hc)
    | some ck =>
      rw [if_pos (by simp [hk])]
      obtain ⟨hd, hh, hv, hr⟩ : f.stoch_rsi_d.isSome = true ∧
          f.hlt.isSome = true ∧ f.volume_spike.isSome = true ∧
          f.rsi.isSome = true := by
        rcases hcoh with hnone | hsome
        · rw [hk] at hnone; exact absurd hnone (by simp)
        · exact hsome
      obtain ⟨cd, hcd⟩ := Option.isSome_iff_exists.mp hd
      obtain ⟨ch, hch⟩ := Option.isSome_iff_exists.mp hh
      obtain ⟨cv, hcv⟩ := Option.isSome_iff_exists.mp hv
      obtain ⟨cr, hcr⟩ := Option.isSome_iff_exists.mp hr
      refine extractInput_isSome _
        ⟨ck, hk, hne ck (hK ck hk)⟩
        ⟨cd, hcd, hne cd (hD cd hcd)⟩
        ⟨ch, hch, hne ch (hH ch hch)⟩
        ⟨cv, hcv, ?_⟩
        ⟨cr, hcr, hne cr (hR cr hcr)⟩
        (fun c hc => hne c (hfg c hc))
        (fun c hc => hne c (hvix c hc))
      rw [← List.length_pos, hV cv hcv]
      exact hn
  obtain ⟨sb, hsb⟩ := hsb
  refine ⟨classify sb.1 sb.2, ?_⟩
  rw [analyze_stage, hsb]
  rfl

/-- The empty frame (an empty bar sequence). -/
def emptyF : Frame :=
  { dOpen := [], dHigh := [], dLow := [], dClose := [], dVolume := [] }

/-- C5 counterexample: on an empty bar sequence `analyze_stage` produces no
result (the source raises `IndexError` at `iloc[-1]`), so the classifier is
not total as claimed. -/
theorem analyze_stage_empty_counterexample : analyze_stage emptyF = none := by
  decide

/-- C5 (amended): `analyze_stage` is total on every nonempty (well-formed)
input frame — it always returns a classification result, falling back to the
default stage; the empty bar sequence is the only failing case. -/
theorem analyze_stage_total_nonempty (f : Frame) (hwf : WellFormed f)
    (hn : 0 < frameLen f) : ∃ r, analyze_stage f = some r :=
  analyze_stage_isSome f hwf hn

/-- Witness for C5 (amended) on the one-row frame. -/
theorem analyze_stage_total_nonempty_witness :
    WellFormed oneF ∧ 0 < frameLen oneF ∧ ∃ r, analyze_stage oneF = some r :=
  ⟨by decide, by decide, analyze_stage_total_nonempty oneF (by decide) (by decide)⟩

theorem optTraverse_isSome {α : Type} :
    ∀ (L : List (Option α)), (∀ x ∈ L, x.isSome = true) →
      ∃ l, optTraverse L = some l
  | [], _ => ⟨[], rfl⟩
  | o :: os, h => by
    obtain ⟨a, ha⟩ := Option.isSome_iff_exists.mp (h o (by simp))
    obtain ⟨l, hl⟩ := optTraverse_isSome os (fun x hx => h x (by simp [hx]))
    exact ⟨a :: l, by rw [optTraverse, ha, hl]; rfl⟩

theorem optTraverse_getElem? {α : Type} :
    ∀ (L : List (Option α)) (l : List α), optTraverse L = some l →
      l.length = L.length ∧ ∀ i : ℕ, L[i]? = (l[i]?).map some
  | [], l, h => by
    obtain rfl : ([] : List α) = l := by simpa [optTraverse] using h
    exact ⟨rfl, by simp⟩
  | o :: os, l, h => by
    rw [optTraverse] at h
    cases ho : o with
    | none => rw [ho] at h; simp at h
    | some a =>
      rw [ho] at h
      cases hrec : optTraverse os with
      | none => rw [hrec] at h; simp at h
      | some t =>
        rw [hrec] at h
        obtain rfl : a :: t = l := by simpa using h
        obtain ⟨hlen, hidx⟩ := optTraverse_getElem? os t hrec
        refine ⟨by simp [hlen], ?_⟩
        intro i
        cases i with
        | zero => simp
        | succ i => simpa using hidx i

theorem frameLen_frameTake (d : Frame) (k : ℕ) :
    frameLen (frameTake d k) = min k (frameLen d) := by
  simp [frameTake, frameLen]

theorem wf_calc (f : Frame) (hwf : WellFormed f) :
    WellFormed (calculate_all_indicators f) := by
  obtain ⟨h1, h2, h3, h4, h5, h6, -, -, -, -, -, -, -, h14, h15, -⟩ := hwf
  refine ⟨h1, h2, h3, h4, h5, h6, ?_, ?_, ?_, ?_, ?_, ?_, ?_, h14, h15, ?_⟩
  · intro c hc; cases hc; exact length_colOf _ _
  · intro c hc; cases hc; exact length_colOf _ _
  · intro c hc; cases hc; exact length_colOf _ _
  · intro c hc; cases hc; exact length_colOf _ _
  · intro c hc; cases hc; exact length_colOf _ _
  · intro c hc; cases hc; exact length_colOf _ _
  · intro c hc; cases hc; exact length_colOf _ _
  · exact Or.inr ⟨rfl, rfl, rfl, rfl⟩

theorem wf_frameTake (d : Frame) (k : ℕ) (hwf : WellFormed d)
    (hk : k ≤ frameLen d) : WellFormed (frameTake d k) := by
  obtain ⟨h1, h2, h3, h4, h5, h6, h7, h8, h9, h10, h11, h12, h13, h14, h15, h16⟩ := hwf
  have hlen : frameLen (frameTake d k) = k := by
    rw [frameLen_frameTake]; omega
  have htk : ∀ {α : Type} (l : List α), l.length = frameLen d →
      (l.take k).length = frameLen (frameTake d k) := by
    intro α l hl
    rw [List.length_take, hl, hlen]; omega
  have hopt : ∀ {α : Type} (o : Option (List α)), optColOk o (frameLen d) →
      optColOk (o.map (fun l => l.take k)) (frameLen (frameTake d k)) := by
    intro α o ho c hc
    cases o with
    | none => simp at hc
    | some l =>
      obtain rfl : l.take k = c := by simpa using hc
      exact htk l (ho l rfl)
  refine ⟨htk _ h1, htk _ h2, htk _ h3, htk _ h4, hopt _ h5, hopt _ h6,
    hopt _ h7, hopt _ h8, hopt _ h9, hopt _ h10, hopt _ h11, hopt _ h12,
    hopt _ h13, hopt _ h14, hopt _ h15, ?_⟩
  rcases h16 with hnone | ⟨hd, hh, hv, hr⟩
  · exact Or.inl (by simp [frameTake, hnone])
  · refine Or.inr ⟨?_, ?_, ?_, ?_⟩ <;> simp [frameTake, *]

theorem history_spec (f : Frame) (hwf : WellFormed f) :
    ∃ ps : List (Option String × ℚ),
      analyze_stage_history f =
        some { calculate_all_indicators f with
               stage := some (ps.map Prod.fst)
               stage_confidence := some (ps.map Prod.snd) } ∧
      ps.length = frameLen f ∧
      ∀ i : ℕ, i < frameLen f →
        stageAtIndex (calculate_all_indicators f) i = some (ps.getD i (none, 0)) := by
  have hwfd : WellFormed (calculate_all_indicators f) := wf_calc f hwf
  have hsome : ∀ x ∈ (List.range (frameLen (calculate_all_indicators f))).map
      (stageAtIndex (calculate_all_indicators f)), x.isSome = true := by
    intro x hx
    obtain ⟨i, hi, rfl⟩ := List.mem_map.mp hx
    rw [List.mem_range] at hi
    by_cases h50 : i < 50
    · rw [stageAtIndex, if_pos h50]; rfl
    · rw [stageAtIndex, if_neg h50]
      obtain ⟨r, hr⟩ :=
        analyze_stage_isSome (frameTake (calculate_all_indicators f) (i + 1))
          (wf_frameTake _ (i + 1) hwfd (by omega))
          (by rw [frameLen_frameTake]; omega)
      rw [hr]; rfl
  obtain ⟨ps, hps⟩ := optTraverse_isSome _ hsome
  obtain ⟨hlen, hidx⟩ := optTraverse_getElem? _ ps hps
  have hlen2 : ps.length = frameLen f := by
    rw [hlen, List.length_map, List.length_range, frameLen_calc]
  refine ⟨ps, ?_, hlen2, ?_⟩
  · simp only [analyze_stage_history]
    rw [hps]
    rfl
  · intro i hi
    have h1 := hidx i
    rw [List.getElem?_map, List.getElem?_range (by rw [frameLen_calc]; exact hi)] at h1
    have h2 : ps[i]? = some (ps.getD i (none, 0)) := by
      rw [List.getElem?_eq_getElem (by omega)]
      simp [List.getD_eq_getElem?_getD, List.getElem?_eq_getElem (show i < ps.length by omega)]
    rw [h2] at h1
    simpa using h1

/-- C8: `analyze_stage_history` records no stage (`None`) and confidence 0
at every index below the 50-bar warm-up; the classifier runs only from
index 50 on. -/
theorem history_warmup_below_50 (f : Frame) (i : ℕ) (hwf : WellFormed f)
    (hi : i < 50) (hilen : i < frameLen f) :
    recordedStage (analyze_stage_history f) i = some none ∧
    recordedConf (analyze_stage_history f) i = some 0 := by
  obtain ⟨ps, hh, hlen, hidx⟩ := history_spec f hwf
  have hv := hidx i hilen
  rw [stageAtIndex, if_pos hi] at hv
  have hpi : ps.getD i (none, 0) = ((none : Option String), (0 : ℚ)) :=
    (Option.some_injective _ hv).symm
  have hips : i < ps.length := by omega
  have hget : ps[i] = ((none : Option String), (0 : ℚ)) := by
    rw [← hpi]
    simp [List.getD_eq_getElem?_getD, List.getElem?_eq_getElem hips]
  rw [recordedStage, recordedConf, hh]
  constructor
  · show (ps.map Prod.fst)[i]? = some none
    rw [List.getElem?_map, List.getElem?_eq_getElem hips, hget]
    rfl
  · show (ps.map Prod.snd)[i]? = some 0
    rw [List.getElem?_map, List.getElem?_eq_getElem hips, hget]
    rfl

/-- Witness for C8 on the one-row frame at index 0. -/
theorem history_warmup_below_50_witness :
    WellFormed oneF ∧ 0 < 50 ∧ 0 < frameLen oneF ∧
    recordedStage (analyze_stage_history oneF) 0 = some none ∧
    recordedConf (analyze_stage_history oneF) 0 = some 0 := by
  have h := history_warmup_below_50 oneF 0 (by decide) (by norm_num) (by decide)
  exact ⟨by decide, by norm_num, by decide, h.1, h.2⟩

/-- C10: the indicator computation and the historical labeling only attach
derived columns — the raw Open/High/Low/Close/Volume data of every bar is
unchanged. -/
theorem frame_ohlcv_preserved (f : Frame) :
    ((calculate_all_indicators f).dOpen = f.dOpen ∧
      (calculate_all_indicators f).dHigh = f.dHigh ∧
      (calculate_all_indicators f).dLow = f.dLow ∧
      (calculate_all_indicators f).dClose = f.dClose ∧
      (calculate_all_indicators f).dVolume = f.dVolume) ∧
    (WellFormed f → ∃ d, analyze_stage_history f = some d ∧
      d.dOpen = f.dOpen ∧ d.dHigh = f.dHigh ∧ d.dLow = f.dLow ∧
      d.dClose = f.dClose ∧ d.dVolume = f.dVolume) := by
  refine ⟨⟨rfl, rfl, rfl, rfl, rfl⟩, ?_⟩
  intro hwf
  obtain ⟨ps, hh, -, -⟩ := history_spec f hwf
  exact ⟨_, hh, rfl, rfl, rfl, rfl, rfl⟩

/-- Witness for C10 on the one-row frame. -/
theorem frame_ohlcv_preserved_witness :
    WellFormed oneF ∧
    (calculate_all_indicators oneF).dClose = oneF.dClose ∧
    (∃ d, analyze_stage_history oneF = some d ∧
      d.dOpen = oneF.dOpen ∧ d.dHigh = oneF.dHigh ∧ d.dLow = oneF.dLow ∧
      d.dClose = oneF.dClose ∧ d.dVolume = oneF.dVolume) :=
  ⟨by decide, (frame_ohlcv_preserved oneF).1.2.2.2.1,
    (frame_ohlcv_preserved oneF).2 (by decide)⟩

theorem frameLen_effective (f : Frame) :
    frameLen (effectiveFrame f) = frameLen f := by
  unfold effectiveFrame
  split <;> rfl

theorem extractInput_weekly (p : Frame) (sb : Snap × BonusCtx)
    (h : extractInput p = some sb) :
    sb.1.weekly_stoch_rsi = weeklyOf p sb.1.stoch_rsi_k := by
  unfold extractInput at h
  split at h
  · injection h with h2
    subst h2
    rfl
  · exact absurd h (by simp)

/-- C9: the weekly stochastic-RSI proxy used by the classifier is the mean
of the last 5 stochastic-K entries when the frame has at least 5 bars, and
the single latest stochastic-K value when it has fewer than 5 bars. -/
theorem analyze_stage_weekly_proxy (f : Frame) (r : StageResult)
    (h : analyze_stage f = some r) :
    (frameLen f < 5 →
      r.indicators.weekly_stoch_rsi = r.indicators.stoch_rsi_k) ∧
    (5 ≤ frameLen f →
      r.indicators.weekly_stoch_rsi =
        seriesMean (lastN 5 ((effectiveFrame f).stoch_rsi_k.getD []))) := by
  rw [analyze_stage] at h
  obtain ⟨⟨s, b⟩, hx, rfl⟩ := Option.map_eq_some'.mp h
  have hw := extractInput_weekly _ _ hx
  have hind : (classify s b).indicators = s := by
    unfold classify
    cases pickBest (firedRules s b) <;> rfl
  rw [hind]
  have he : frameLen (effectiveFrame f) = frameLen f := frameLen_effective f
  constructor
  · intro h5
    rw [hw, weeklyOf, if_neg (by omega)]
  · intro h5
    rw [hw, weeklyOf, if_pos (by omega)]

/-- A five-row frame (five identical bars). -/
def fiveF : Frame :=
  { dOpen := List.replicate 5 1, dHigh := List.replicate 5 1,
    dLow := List.replicate 5 1, dClose := List.replicate 5 1,
    dVolume := List.replicate 5 1 }

/-- Witness for C9 on a one-row and a five-row frame. -/
theorem analyze_stage_weekly_proxy_witness :
    (analyze_stage oneF = some oneFResult ∧ frameLen oneF < 5 ∧
      oneFResult.indicators.weekly_stoch_rsi =
        oneFResult.indicators.stoch_rsi_k) ∧
    (∃ r, analyze_stage fiveF = some r ∧ 5 ≤ frameLen fiveF ∧
      r.indicators.weekly_stoch_rsi =
        seriesMean (lastN 5 ((effectiveFrame fiveF).stoch_rsi_k.getD []))) := by
  have h1 : analyze_stage oneF = some oneFResult := by decide
  obtain ⟨r5, hr5⟩ := analyze_stage_isSome fiveF (by decide) (by decide)
  exact ⟨⟨h1, by decide,
      (analyze_stage_weekly_proxy oneF oneFResult h1).1 (by decide)⟩,
    ⟨r5, hr5, by decide,
      (analyze_stage_weekly_proxy fiveF r5 hr5).2 (by decide)⟩⟩

theorem colAt_congr {l1 l2 : List ℚ} {i j : ℕ}
    (ht : l1.take (i + 1) = l2.take (i + 1)) (hj : j ≤ i) :
    colAt l1 j = colAt l2 j := by
  have h1 : l1[j]? = l2[j]? := by
    rw [← List.getElem?_take_of_lt (l := l1) (show j < i + 1 by omega),
      ← List.getElem?_take_of_lt (l := l2) (show j < i + 1 by omega), ht]
  rw [colAt, colAt, h1]

theorem rollWindow_congr (f g : ℕ → Fl) (w j : ℕ)
    (h : ∀ m, m ≤ j → f m = g m) : rollWindow f w j = rollWindow g w j := by
  rw [rollWindow, rollWindow]
  apply List.map_congr_left
  intro m hm
  have := List.mem_range.mp (List.mem_of_mem_drop hm)
  exact h m (by omega)

theorem rollingMean_congr (f g : ℕ → Fl) (w j : ℕ)
    (h : ∀ m, m ≤ j → f m = g m) : rollingMean f w j = rollingMean g w j := by
  rw [rollingMean, rollingMean, rollWindow_congr f g w j h]

theorem rollingMin_congr (f g : ℕ → Fl) (w j : ℕ)
    (h : ∀ m, m ≤ j → f m = g m) : rollingMin f w j = rollingMin g w j := by
  unfold rollingMin
  rw [rollWindow_congr f g w j h]

theorem rollingMax_congr (f g : ℕ → Fl) (w j : ℕ)
    (h : ∀ m, m ≤ j → f m = g m) : rollingMax f w j = rollingMax g w j := by
  unfold rollingMax
  rw [rollWindow_congr f g w j h]

theorem deltaAt_congr {l1 l2 : List ℚ} {i j : ℕ}
    (ht : l1.take (i + 1) = l2.take (i + 1)) (hj : j ≤ i) :
    deltaAt l1 j = deltaAt l2 j := by
  rw [deltaAt, deltaAt]
  by_cases h0 : j = 0
  · simp [h0]
  · rw [if_neg h0, if_neg h0, colAt_congr ht hj, colAt_congr ht (by omega)]

theorem gainAt_congr {l1 l2 : List ℚ} {i j : ℕ}
    (ht : l1.take (i + 1) = l2.take (i + 1)) (hj : j ≤ i) :
    gainAt l1 j = gainAt l2 j := by
  rw [gainAt, gainAt, deltaAt_congr ht hj]

theorem lossAt_congr {l1 l2 : List ℚ} {i j : ℕ}
    (ht : l1.take (i + 1) = l2.take (i + 1)) (hj : j ≤ i) :
    lossAt l1 j = lossAt l2 j := by
  rw [lossAt, lossAt, deltaAt_congr ht hj]

theorem rsiAt_congr {l1 l2 : List ℚ} {i j : ℕ}
    (ht : l1.take (i + 1) = l2.take (i + 1)) (hj : j ≤ i) :
    rsiAt l1 j = rsiAt l2 j := by
  rw [rsiAt, rsiAt,
    rollingMean_congr (gainAt l1) (gainAt l2) 14 j
      (fun m hm => gainAt_congr ht (hm.trans hj)),
    rollingMean_congr (lossAt l1) (lossAt l2) 14 j
      (fun m hm => lossAt_congr ht (hm.trans hj))]

theorem stochRsiAt_congr {l1 l2 : List ℚ} {i j : ℕ}
    (ht : l1.take (i + 1) = l2.take (i + 1)) (hj : j ≤ i) :
    stochRsiAt l1 j = stochRsiAt l2 j := by
  rw [stochRsiAt, stochRsiAt, rsiAt_congr ht hj,
    rollingMin_congr (rsiAt l1) (rsiAt l2) 14 j
      (fun m hm => rsiAt_congr ht (hm.trans hj)),
    rollingMax_congr (rsiAt l1) (rsiAt l2) 14 j
      (fun m hm => rsiAt_congr ht (hm.trans hj))]

theorem stochKAt_congr {l1 l2 : List ℚ} {i j : ℕ}
    (ht : l1.take (i + 1) = l2.take (i + 1)) (hj : j ≤ i) :
    stochKAt l1 j = stochKAt l2 j := by
  rw [stochKAt, stochKAt,
    rollingMean_congr (stochRsiAt l1) (stochRsiAt l2) 3 j
      (fun m hm => stochRsiAt_congr ht (hm.trans hj))]

theorem stochDAt_congr {l1 l2 : List ℚ} {i j : ℕ}
    (ht : l1.take (i + 1) = l2.take (i + 1)) (hj : j ≤ i) :
    stochDAt l1 j = stochDAt l2 j := by
  rw [stochDAt, stochDAt,
    rollingMean_congr (stochKAt l1) (stochKAt l2) 3 j
      (fun m hm => stochKAt_congr ht (hm.trans hj))]

theorem hltAt_congr {h1 h2 lo1 lo2 c1 c2 : List ℚ} {i j : ℕ}
    (hth : h1.take (i + 1) = h2.take (i + 1))
    (htl : lo1.take (i + 1) = lo2.take (i + 1))
    (htc : c1.take (i + 1) = c2.take (i + 1)) (hj : j ≤ i) :
    hltAt h1 lo1 c1 j = hltAt h2 lo2 c2 j := by
  rw [hltAt, hltAt, colAt_congr htc hj,
    rollingMin_congr (colAt lo1) (colAt lo2) 20 j
      (fun m hm => colAt_congr htl (hm.trans hj)),
    rollingMax_congr (colAt h1) (colAt h2) 20 j
      (fun m hm => colAt_congr hth (hm.trans hj))]

theorem volSpikeAt_congr {v1 v2 : List ℚ} {i j : ℕ}
    (ht : v1.take (i + 1) = v2.take (i + 1)) (hj : j ≤ i) :
    volSpikeAt v1 j = volSpikeAt v2 j := by
  rw [volSpikeAt, volSpikeAt, colAt_congr ht hj,
    rollingMean_congr (colAt v1) (colAt v2) 20 j
      (fun m hm => colAt_congr ht (hm.trans hj))]

theorem smaAt_congr {l1 l2 : List ℚ} {w i j : ℕ}
    (ht : l1.take (i + 1) = l2.take (i + 1)) (hj : j ≤ i) :
    smaAt l1 w j = smaAt l2 w j := by
  rw [smaAt, smaAt,
    rollingMean_congr (colAt l1) (colAt l2) w j
      (fun m hm => colAt_congr ht (hm.trans hj))]

theorem colOf_take_congr {α : Type} (F1 F2 : ℕ → α) (n1 n2 i : ℕ)
    (hn1 : i < n1) (hn2 : i < n2) (h : ∀ m, m ≤ i → F1 m = F2 m) :
    (colOf n1 F1).take (i + 1) = (colOf n2 F2).take (i + 1) := by
  rw [colOf, colOf, ← List.map_take, ← List.map_take, List.take_range,
    List.take_range, Nat.min_eq_left (by omega), Nat.min_eq_left (by omega)]
  apply List.map_congr_left
  intro m hm
  have := List.mem_range.mp hm
  exact h m (by omega)

theorem analyze_stage_congr (p q : Frame)
    (hps : p.stoch_rsi_k.isSome = true) (hqs : q.stoch_rsi_k.isSome = true)
    (h1 : p.stoch_rsi_k = q.stoch_rsi_k) (h2 : p.stoch_rsi_d = q.stoch_rsi_d)
    (h3 : p.hlt = q.hlt) (h4 : p.volume_spike = q.volume_spike)
    (h5 : p.rsi = q.rsi) (h6 : p.fear_greed = q.fear_greed)
    (h7 : p.vix = q.vix) (h8 : p.dClose = q.dClose) (h9 : p.dHigh = q.dHigh) :
    analyze_stage p = analyze_stage q := by
  rw [analyze_stage, analyze_stage,
    show effectiveFrame p = p by unfold effectiveFrame; rw [if_pos hps],
    show effectiveFrame q = q by unfold effectiveFrame; rw [if_pos hqs]]
  have hx : extractInput p = extractInput q := by
    unfold extractInput lastFgOf lastVixOf weeklyOf frameLen
    rw [h1, h2, h3, h4, h5, h6, h7, h8, h9]
  rw [hx]

theorem stageAtIndex_congr (f g : Frame) (i : ℕ) (hA : AgreeUpTo f g i)
    (hf : i < frameLen f) (hg : i < frameLen g) :
    stageAtIndex (calculate_all_indicators f) i =
      stageAtIndex (calculate_all_indicators g) i := by
  by_cases h50 : i < 50
  · rw [stageAtIndex, stageAtIndex, if_pos h50, if_pos h50]
  · obtain ⟨hO, hH, hL, hC, hV, hX, hF⟩ := hA
    rw [stageAtIndex, stageAtIndex, if_neg h50, if_neg h50]
    have key : analyze_stage (frameTake (calculate_all_indicators f) (i + 1)) =
        analyze_stage (frameTake (calculate_all_indicators g) (i + 1)) := by
      apply analyze_stage_congr
      · rfl
      · rfl
      · exact congrArg some (colOf_take_congr _ _ _ _ i hf hg
          (fun m hm => stochKAt_congr hC hm))
      · exact congrArg some (colOf_take_congr _ _ _ _ i hf hg
          (fun m hm => stochDAt_congr hC hm))
      · exact congrArg some (colOf_take_congr _ _ _ _ i hf hg
          (fun m hm => hltAt_congr hH hL hC hm))
      · exact congrArg some (colOf_take_congr _ _ _ _ i hf hg
          (fun m hm => volSpikeAt_congr hV hm))
      · exact congrArg some (colOf_take_congr _ _ _ _ i hf hg
          (fun m hm => rsiAt_congr hC hm))
      · exact hF
      · exact hX
      · exact hC
      · exact hH
    rw [key]

/-- C2: the stage and confidence that `analyze_stage_history` records at an
index `i` past the warm-up depend only on bars `[0, i]`: two input frames
that agree on their raw bars and auxiliary series up to index `i` (and may
differ arbitrarily after it) record the same stage and confidence at `i`. -/
theorem history_no_lookahead (f g : Frame) (i : ℕ)
    (hwf : WellFormed f) (hwg : WellFormed g) (hA : AgreeUpTo f g i)
    (_h50 : 50 ≤ i) (hf : i < frameLen f) (hg : i < frameLen g) :
    recordedStage (analyze_stage_history f) i =
      recordedStage (analyze_stage_history g) i ∧
    recordedConf (analyze_stage_history f) i =
      recordedConf (analyze_stage_history g) i := by
  obtain ⟨ps, hhf, hlenf, hidxf⟩ := history_spec f hwf
  obtain ⟨qs, hhg, hleng, hidxg⟩ := history_spec g hwg
  have hkey := stageAtIndex_congr f g i hA hf hg
  have h1 := hidxf i hf
  have h2 := hidxg i hg
  have hpq : ps.getD i (none, 0) = qs.getD i (none, 0) :=
    Option.some_injective _ (h1.symm.trans (hkey.trans h2))
  have hips : i < ps.length := by omega
  have hiqs : i < qs.length := by omega
  have hgets : ps[i] = qs[i] := by
    have hp : ps[i] = ps.getD i (none, 0) := by
      simp [List.getD_eq_getElem?_getD, List.getElem?_eq_getElem hips]
    have hq : qs[i] = qs.getD i (none, 0) := by
      simp [List.getD_eq_getElem?_getD, List.getElem?_eq_getElem hiqs]
    rw [hp, hq, hpq]
  rw [recordedStage, recordedStage, recordedConf, recordedConf, hhf, hhg]
  constructor
  · show (ps.map Prod.fst)[i]? = (qs.map Prod.fst)[i]?
    rw [List.getElem?_map, List.getElem?_map, List.getElem?_eq_getElem hips,
      List.getElem?_eq_getElem hiqs, hgets]
  · show (ps.map Prod.snd)[i]? = (qs.map Prod.snd)[i]?
    rw [List.getElem?_map, List.getElem?_map, List.getElem?_eq_getElem hips,
      List.getElem?_eq_getElem hiqs, hgets]

/-- A 52-row frame of constant bars. -/
def histF : Frame :=
  { dOpen := List.replicate 52 1, dHigh := List.replicate 52 1,
    dLow := List.replicate 52 1, dClose := List.replicate 52 1,
    dVolume := List.replicate 52 1 }

/-- A 52-row frame agreeing with `histF` on bars 0..50 but with a different
closing price at bar 51. -/
def histG : Frame :=
  { dOpen := List.replicate 52 1, dHigh := List.replicate 52 1,
    dLow := List.replicate 52 1, dClose := List.replicate 51 1 ++ [2],
    dVolume := List.replicate 52 1 }

/-- Witness for C2: the two 52-row frames differ strictly after index 50 and
record the same stage and confidence at index 50. -/
theorem history_no_lookahead_witness :
    WellFormed histF ∧ WellFormed histG ∧ AgreeUpTo histF histG 50 ∧
    histF.dClose ≠ histG.dClose ∧ 50 < frameLen histF ∧ 50 < frameLen histG ∧
    (recordedStage (analyze_stage_history histF) 50 =
        recordedStage (analyze_stage_history histG) 50 ∧
      recordedConf (analyze_stage_history histF) 50 =
        recordedConf (analyze_stage_history histG) 50) :=
  ⟨by decide, by decide, by decide, by decide, by decide, by decide,
    history_no_lookahead histF histG 50 (by decide) (by decide) (by decide)
      (le_refl 50) (by decide) (by decide)⟩
